import Mathlib

/- Verification development for the protocomm launcher.

   The program under study is a small popup launcher: the user types a short
   alias, the program normalizes it, looks it up in a JSON-backed alias table
   and opens the resolved target, giving color-flash feedback on errors.  The
   repository holds several evolutionary variants of the same program: a
   procedural PyQt6 variant and a tkinter variant (both in main.pyw), and a
   class-based PyQt6 variant (CommandManager / ProtocommWindowConfig /
   ProtocommWindow).  The definitions below embed those sources; filesystem
   and GUI side effects are made explicit parameters (a file-present flag plus
   the file's text, an oracle for os.startfile, an explicit timer-slot list). -/

/-- The ASCII whitespace characters removed by Python's str.strip.
    (Python also strips some non-ASCII Unicode spaces; the embedding covers
    the ASCII range, which is all the repository's data uses.) -/
def isPySpace (c : Char) : Bool :=
  c = ' ' || c = '\t' || c = '\n' || c = '\r' || c = '\x0b' || c = '\x0c'

/-- Python str.lower, ASCII range (Char.toLower lowercases exactly A-Z). -/
def pyLower (s : String) : String := ⟨s.data.map Char.toLower⟩

/-- Python str.upper, ASCII range. -/
def pyUpper (s : String) : String := ⟨s.data.map Char.toUpper⟩

/-- Python str.strip on a character list: drop leading and trailing whitespace. -/
def pyStripList (l : List Char) : List Char :=
  ((l.dropWhile isPySpace).reverse.dropWhile isPySpace).reverse

/-- Python str.strip. -/
def pyStrip (s : String) : String := ⟨pyStripList s.data⟩

/-- A value stored in the alias table: the JSON files hold either a bare
    string (a path to open) or a list of strings (an argument vector). -/
inductive Value where
  | VStr : String → Value
  | VList : List String → Value
deriving DecidableEq

/-- The alias table: a Python dict from alias strings to targets, embedded as
    an insertion-ordered association list with unique keys (Python dicts
    preserve insertion order; updating an existing key keeps its position). -/
abbrev Table := List (String × Value)

/-- Python dict lookup `d[k]` / `k in d` on the association-list embedding. -/
def lookupTbl : Table → String → Option Value
  | [], _ => none
  | (k, v) :: rest, key => if k = key then some v else lookupTbl rest key

/-- Python dict assignment `d[k] = v`: overwrite in place if the key exists
    (keeping its position), otherwise append. -/
def insertTbl : Table → String × Value → Table
  | [], kv => [kv]
  | (k, v) :: rest, kv =>
    if k = kv.1 then (k, kv.2) :: rest else (k, v) :: insertTbl rest kv

/-- Python `str(value)` as used by the f-string in write_to_file: a string
    formats as itself; a list of strings formats via repr, e.g.
    `[\x27a\x27, \x27b\x27]` (modelled for element strings that contain no
    quote or escape characters, which is what repr then produces). -/
def pyStr : Value → String
  | .VStr s => s
  | .VList l =>
      "[" ++ String.intercalate ", " (l.map (fun s => "\x27" ++ s ++ "\x27")) ++ "]"

/-- One serialized entry of the commands file, from the f-string
    `f\x27\n\t"\x7bc\x7d": "\x7bself.commands[c]\x7d",\x27` in
    CommandManager.write_to_file (and identically in
    make_default_commands_file). -/
def entryStr (k : String) (v : Value) : String :=
  "\n\t\"" ++ k ++ "\": \"" ++ pyStr v ++ "\","

/-- CommandManager.write_to_file: the exact text written to the commands
    file — an opening brace, the concatenated entries with the final comma
    sliced off (`commands_str[:-1]`), a newline and a closing brace. -/
def CommandManager.write_to_file (commands : Table) : String :=
  let commands_str := commands.foldl (fun acc kv => acc ++ entryStr kv.1 kv.2) ""
  "\x7b" ++ (⟨commands_str.data.dropLast⟩ : String) ++ "\n\x7d"

/-- `data.replace(\x27\n\x27, \x27\x27)` in load_commands_file /
    CommandManager.load_from_file: remove every newline. -/
def stripNewlines (s : String) : String := ⟨s.data.filter (fun c => c ≠ '\n')⟩

/-- JSON inter-token whitespace, as accepted by Python's json.loads. -/
def skipWs : List Char → List Char :=
  List.dropWhile (fun c => c = ' ' || c = '\t' || c = '\n' || c = '\r')

/-- Body of a JSON string after the opening quote: plain characters up to the
    closing quote.  Models json.loads for escape-free strings: a backslash or
    a control character is rejected rather than interpreted (the repository's
    round-trip claims are scoped to escape-free data). -/
def parseStrChars : List Char → Option (List Char × List Char)
  | [] => none
  | c :: rest =>
    if c = '"' then some ([], rest)
    else if c = '\\' || c.toNat < 32 then none
    else
      match parseStrChars rest with
      | some (s, r) => some (c :: s, r)
      | none => none

/-- One `"key": "value"` member of a JSON object with a string value. -/
def parseMember (l : List Char) : Option ((String × Value) × List Char) :=
  match skipWs l with
  | [] => none
  | c :: rest =>
    if c = '"' then
      match parseStrChars rest with
      | none => none
      | some (kd, r1) =>
        match skipWs r1 with
        | [] => none
        | c2 :: r2 =>
          if c2 = ':' then
            match skipWs r2 with
            | [] => none
            | c3 :: r3 =>
              if c3 = '"' then
                match parseStrChars r3 with
                | none => none
                | some (vd, r4) => some ((⟨kd⟩, Value.VStr ⟨vd⟩), r4)
              else none
          else none
    else none

/-- Remaining members of a JSON object after the first: a comma and a member,
    repeatedly, then the closing brace with only whitespace after it.
    Members accumulate by dict insertion, as json.loads builds its dict.
    Fuel-based recursion; each step consumes at least the comma. -/
def parseObjLoop : Nat → List Char → Table → Option Table
  | 0, _, _ => none
  | fuel + 1, l, acc =>
    match skipWs l with
    | [] => none
    | c :: rest =>
      if c = ',' then
        match parseMember rest with
        | some (kv, r) => parseObjLoop fuel r (insertTbl acc kv)
        | none => none
      else if c = '\x7d' then
        if skipWs rest = [] then some acc else none
      else none

/-- Python json.loads, restricted to the shape the repository reads and
    writes: a single JSON object whose values are escape-free strings.
    Returns none where json.loads would raise (malformed text, or a feature
    outside the modelled fragment). -/
def json.loads (s : String) : Option Table :=
  match skipWs s.data with
  | [] => none
  | c :: rest =>
    if c = '\x7b' then
      match skipWs rest with
      | [] => none
      | c2 :: r2 =>
        if c2 = '\x7d' then
          if skipWs r2 = [] then some [] else none
        else
          match parseMember rest with
          | some (kv, r) => parseObjLoop (r.length + 1) r (insertTbl [] kv)
          | none => none
    else none

/-- The default commands dict (DEFAULT_COMMANDS in the class-based variant,
    `defaults` in make_default_commands_file). -/
def default_commands : Table :=
  [("commands", Value.VStr "commands.json"), ("config", Value.VStr "config.ini")]

/-- Shared read-and-parse step of load_commands_file and
    CommandManager.load_from_file: strip newlines from the file text, then
    json.loads. -/
def loadCommandsText (text : String) : Option Table :=
  json.loads (stripNewlines text)

/-- load_commands_file (procedural variants): if the file does not exist,
    write and return the defaults; otherwise return exactly what the file
    parses to.  The filesystem is explicit: a file-present flag and the
    file's text when present.  none models a raised json.JSONDecodeError. -/
def load_commands_file (file_present : Bool) (file_text : String) : Option Table :=
  if file_present then loadCommandsText file_text
  else some default_commands

/-- CommandManager.load_from_file: when the file is absent the manager first
    writes its current commands out (write_to_file) and then reads that same
    text back; either way the parsed entries are merged into the current
    commands dict by assignment (`self.commands[c] = commands_from_file[c]`). -/
def CommandManager.load_from_file (commands : Table) (file_present : Bool)
    (file_text : String) : Option Table :=
  let data := if file_present then file_text else CommandManager.write_to_file commands
  match loadCommandsText data with
  | some entries => some (entries.foldl insertTbl commands)
  | none => none

/-- The CommandStatus enum. -/
inductive CommandStatus where
  | SUCCESS
  | INVALID
  | MISSING_FILE
deriving DecidableEq

/-- Outcome of one os.startfile call, supplied as an oracle: it opens, it
    raises FileNotFoundError, or it raises some other exception (e.g. the
    TypeError CPython raises when handed a non-string such as a list). -/
inductive OpenResult where
  | ok
  | fileNotFound
  | otherError
deriving DecidableEq

/-- What a run_command call does: returns a CommandStatus, falls off the end
    returning None (the empty-input path), or lets an exception propagate. -/
inductive RunResult where
  | status : CommandStatus → RunResult
  | noOutcome : RunResult
  | raised : RunResult
deriving DecidableEq

/-- run_command / CommandManager.run_command: normalize
    (`command.lower().strip()` — the procedural variant strips first and
    lowercases after its emptiness test, which yields the same normalized
    string), return None on empty, else look up; on a hit try os.startfile:
    success → SUCCESS, FileNotFoundError → MISSING_FILE, any other exception
    propagates; on a miss → INVALID. -/
def run_command (startfile : Value → OpenResult) (commands : Table)
    (input : String) : RunResult :=
  let command := pyStrip (pyLower input)
  if command = "" then RunResult.noOutcome
  else
    match lookupTbl commands command with
    | some command_path =>
      match startfile command_path with
      | OpenResult.ok => RunResult.status CommandStatus.SUCCESS
      | OpenResult.fileNotFound => RunResult.status CommandStatus.MISSING_FILE
      | OpenResult.otherError => RunResult.raised
    | none => RunResult.status CommandStatus.INVALID

/-- The pure lookup step of run_command (the specification's `resolve`):
    normalize exactly as run_command does, and return the table entry the
    normalized input hits, if any (none on empty input or a miss). -/
def resolve (commands : Table) (input : String) : Option Value :=
  let command := pyStrip (pyLower input)
  if command = "" then none else lookupTbl commands command

/-- The UI effect chosen by the Return-key branch of
    ProtocommWindow.keyPressEvent (identically handle_return in the tkinter
    variant): quit on SUCCESS, clear-and-flash a color on INVALID or
    MISSING_FILE, nothing at all when run_command returned None, exception
    propagation otherwise. -/
inductive UIAction where
  | quit
  | clearAndFlash : String → UIAction
  | noAction
  | raisedAction
deriving DecidableEq

/-- The Return-key branch of ProtocommWindow.keyPressEvent. -/
def keyPressEvent_return (startfile : Value → OpenResult) (commands : Table)
    (text : String) : UIAction :=
  match run_command startfile commands text with
  | RunResult.status CommandStatus.SUCCESS => UIAction.quit
  | RunResult.status CommandStatus.INVALID => UIAction.clearAndFlash "#FF0000"
  | RunResult.status CommandStatus.MISSING_FILE => UIAction.clearAndFlash "#FF8800"
  | RunResult.noOutcome => UIAction.noAction
  | RunResult.raised => UIAction.raisedAction

/-- Python str.replace: replace every non-overlapping occurrence of the
    pattern, scanning left to right.  Fuel-based recursion (fuel = length of
    the scanned list suffices: every step consumes at least one character
    when the pattern is non-empty). -/
def replaceAllAux (pat : List Char) (rep : List Char) : Nat → List Char → List Char
  | _, [] => []
  | 0, l => l
  | fuel + 1, c :: rest =>
    if pat ≠ [] ∧ pat.isPrefixOf (c :: rest) then
      rep ++ replaceAllAux pat rep fuel ((c :: rest).drop pat.length)
    else
      c :: replaceAllAux pat rep fuel rest

/-- Python `s.replace(pat, rep)` for a non-empty pattern. -/
def pyReplace (s pat rep : String) : String :=
  ⟨replaceAllAux pat.data rep.data s.data.length s.data⟩

/-- Modelled from the spec: the multi-token form of run_command (placeholder
    substitution before subprocess execution) belongs to a later evolutionary
    variant that is not among the source files under src/; the variants there
    only pass a single string target to os.startfile.  Per the spec, before
    execution the literal substring `\x7bCLIPBOARD\x7d` anywhere inside any
    argument of the token list is replaced with the full current clipboard
    text, verbatim, all occurrences, once per argument. -/
def substitute_clipboard (clipboard : String) (args : List String) : List String :=
  args.map (fun a => pyReplace a "\x7bCLIPBOARD\x7d" clipboard)

/-- Modelled from the spec: the argument vector the multi-token form hands to
    the subprocess — the token sequence after clipboard substitution. -/
def run_command_multi_argv (clipboard : String) (args : List String) : List String :=
  substitute_clipboard clipboard args

/-- The ProtocommWindowConfig dataclass: its fields, in annotation order,
    with their declared defaults.  Python floats are embedded as rationals
    (the configuration only ever holds short decimal literals). -/
structure ProtocommWindowConfig where
  x : Int
  y : Int
  width : Int
  height : Int
  padding : Int
  text_size : Int
  font : String
  fg_color : String
  bg_color : String
  opacity : Rat
deriving DecidableEq

/-- The dataclass defaults of ProtocommWindowConfig. -/
def ProtocommWindowConfig.defaults : ProtocommWindowConfig :=
  ⟨10, 10, 600, 42, 8, 32, "Courier New", "#FFFFFF", "#000000", (3 : Rat) / 4⟩

/-- Decimal digits to a natural number. -/
def digitsToNat (l : List Char) : Nat :=
  l.foldl (fun acc c => acc * 10 + (c.toNat - 48)) 0

/-- Python int(string): surrounding whitespace allowed, optional sign, then
    decimal digits.  (Digit-group underscores are not modelled; the
    repository's data never contains them.)  none models a raised ValueError. -/
def pyInt (s : String) : Option Int :=
  let l := pyStripList s.data
  let signBody : Int × List Char :=
    match l with
    | '-' :: rest => (-1, rest)
    | '+' :: rest => (1, rest)
    | _ => (1, l)
  if signBody.2 ≠ [] ∧ signBody.2.all Char.isDigit then
    some (signBody.1 * digitsToNat signBody.2)
  else none

/-- Python float(string) for plain decimal literals: surrounding whitespace,
    optional sign, digits with an optional fractional part (at least one
    digit overall).  Exponents, inf and nan are not modelled; none models a
    raised ValueError. -/
def pyFloat (s : String) : Option Rat :=
  let l := pyStripList s.data
  let signBody : Rat × List Char :=
    match l with
    | '-' :: rest => (-1, rest)
    | '+' :: rest => (1, rest)
    | _ => (1, l)
  let body := signBody.2
  let ipart := body.takeWhile Char.isDigit
  let rest := body.dropWhile Char.isDigit
  match rest with
  | [] => if ipart ≠ [] then some (signBody.1 * digitsToNat ipart) else none
  | '.' :: rest2 =>
    let fpart := rest2.takeWhile Char.isDigit
    let rest3 := rest2.dropWhile Char.isDigit
    if rest3 = [] ∧ (ipart ≠ [] ∨ fpart ≠ []) then
      some (signBody.1 *
        ((digitsToNat ipart : Rat) + (digitsToNat fpart : Rat) / (10 : Rat) ^ fpart.length))
    else none
  | _ => none

/-- Lookup in a configparser Options section (`o[v]`), embedded as an
    association list; none models the KeyError for a missing option. -/
def lookupOpt : List (String × String) → String → Option String
  | [], _ => none
  | (k, v) :: rest, key => if k = key then some v else lookupOpt rest key

/-- One iteration of the load_from_file field loop for an int-annotated
    variable: fetch the option and coerce it with int(); on KeyError or
    ValueError the exception is logged and the variable keeps its current
    value. -/
def setIntVar (options : List (String × String)) (name : String) (cur : Int) : Int :=
  match lookupOpt options name with
  | none => cur
  | some s =>
    match pyInt s with
    | none => cur
    | some n => n

/-- The field loop for a float-annotated variable (opacity). -/
def setRatVar (options : List (String × String)) (name : String) (cur : Rat) : Rat :=
  match lookupOpt options name with
  | none => cur
  | some s =>
    match pyFloat s with
    | none => cur
    | some q => q

/-- The field loop for a str-annotated variable: no coercion is applied, the
    raw option string is assigned; on KeyError the variable keeps its value. -/
def setStrVar (options : List (String × String)) (name : String) (cur : String) : String :=
  match lookupOpt options name with
  | none => cur
  | some s => s

/-- ProtocommWindowConfig.load_from_file after the file has been read into an
    Options section: for each annotated variable in annotation order, fetch
    the option with the variable's name, coerce it to the variable's type,
    and assign it; any exception in one field's iteration is caught and that
    field alone keeps its previous value.  The fields are pairwise
    independent, so the sequential loop equals this simultaneous record. -/
def ProtocommWindowConfig.load_from_file (cfg : ProtocommWindowConfig)
    (options : List (String × String)) : ProtocommWindowConfig :=
  ⟨setIntVar options "x" cfg.x,
   setIntVar options "y" cfg.y,
   setIntVar options "width" cfg.width,
   setIntVar options "height" cfg.height,
   setIntVar options "padding" cfg.padding,
   setIntVar options "text_size" cfg.text_size,
   setStrVar options "font" cfg.font,
   setStrVar options "fg_color" cfg.fg_color,
   setStrVar options "bg_color" cfg.bg_color,
   setRatVar options "opacity" cfg.opacity⟩

/-- The flash machinery of ProtocommWindow: the frame's current style sheet,
    and the list of handlers currently connected to the shared QTimer's
    timeout signal.  Each connected handler is a closure that restores one
    captured style string, so the connection list is embedded as the list of
    captured styles in connection order. -/
structure FlashState where
  frameStyle : String
  slots : List String
deriving DecidableEq

/-- The style-sheet f-string
    `f\x27background-color: \x7bcolor\x7d; border-radius: \x7bint(self.height * 0.3)\x7dpx;\x27`. -/
def mkStyle (color : String) (radius : Int) : String :=
  "background-color: " ++ color ++ "; border-radius: " ++ toString radius ++ "px;"

/-- ProtocommWindow.flash (both PyQt6 variants do the same here): capture the
    frame's current style, set the flash color's style, connect one more
    reset handler to the shared timer's timeout signal, restart the timer. -/
def ProtocommWindow.flash (s : FlashState) (color : String) (radius : Int) : FlashState :=
  ⟨mkStyle color radius, s.slots ++ [s.frameStyle]⟩

/-- A timeout emission in the procedural variant (main.pyw): every connected
    handler runs in connection order, each setting the frame style to its
    captured string, and none is ever disconnected.  Returns the new state
    and the styles set during the emission. -/
def fireTimeoutQt (s : FlashState) : FlashState × List String :=
  (⟨s.slots.getLast?.getD s.frameStyle, s.slots⟩, s.slots)

/-- A timeout emission in the class-based variant: the first connected
    handler restores its captured style and then calls
    `obj.timer.timeout.disconnect()`, which disconnects every handler; per Qt
    semantics a handler disconnected during an emission is not invoked in
    that emission, so the remaining (stale) handlers never run. -/
def fireTimeoutCM (s : FlashState) : FlashState × List String :=
  match s.slots with
  | [] => (s, [])
  | st :: _ => (⟨st, []⟩, [st])

/-- A value of the raw Python defaults dict returned by make_default_config:
    the procedural variants build it with int, float and str literals and
    main indexes it directly on a first run. -/
inductive OptValue where
  | vInt : Int → OptValue
  | vRat : Rat → OptValue
  | vStr : String → OptValue
deriving DecidableEq

/-- The Options section of make_default_config in the PyQt6 procedural
    variant (main.pyw lines 19-31). -/
def qt_default_options : List (String × OptValue) :=
  [("x", OptValue.vInt 10), ("y", OptValue.vInt 10),
   ("width", OptValue.vInt 800), ("height", OptValue.vInt 64),
   ("text_size", OptValue.vInt 32), ("font", OptValue.vStr "Courier New"),
   ("foreground_color", OptValue.vStr "white"),
   ("background_color", OptValue.vStr "black"),
   ("opacity", OptValue.vRat ((3 : Rat) / 4))]

/-- The Options section of make_default_config in the tkinter variant (no
    height and no padding entry either). -/
def tk_default_options : List (String × OptValue) :=
  [("x", OptValue.vInt 10), ("y", OptValue.vInt 10),
   ("width", OptValue.vInt 30),
   ("text_size", OptValue.vInt 32), ("font", OptValue.vStr "Courier New"),
   ("foreground_color", OptValue.vStr "white"),
   ("background_color", OptValue.vStr "black"),
   ("opacity", OptValue.vRat ((4 : Rat) / 5))]

/-- Dict lookup on an options dict; none models the KeyError raised by
    `options[key]` when the key is absent. -/
def lookupOptV : List (String × OptValue) → String → Option OptValue
  | [], _ => none
  | (k, v) :: rest, key => if k = key then some v else lookupOptV rest key

/-- Python int() applied to a defaults-dict value: identity on int, truncation
    toward zero on float, string parse on str (ValueError → none). -/
def intCoerce : OptValue → Option Int
  | .vInt n => some n
  | .vRat q => some (q.num.tdiv (q.den : Int))
  | .vStr s => pyInt s

/-- Python float() applied to a defaults-dict value. -/
def floatCoerce : OptValue → Option Rat
  | .vInt n => some (n : Rat)
  | .vRat q => some q
  | .vStr s => pyFloat s

/-- Python str field access (no coercion applied by main). -/
def strCoerce : OptValue → Option String
  | .vStr s => some s
  | _ => none

/-- The arguments main (PyQt6 procedural variant) computes for
    ProtocommWindow from the options dict. -/
structure QtWindowArgs where
  x : Int
  y : Int
  width : Int
  height : Int
  padding : Int
  text_size : Int
  font : String
  fg_color : String
  bg_color : String
  opacity : Rat
deriving DecidableEq

/-- The option reads of main in the PyQt6 procedural variant (main.pyw lines
    236-247): each `int(options[k])` / `float(options[k])` / `options[k]` in
    turn; none models the first uncaught KeyError or ValueError. -/
def mainReadOptions (options : List (String × OptValue)) : Option QtWindowArgs := do
  let x ← (lookupOptV options "x").bind intCoerce
  let y ← (lookupOptV options "y").bind intCoerce
  let width ← (lookupOptV options "width").bind intCoerce
  let height ← (lookupOptV options "height").bind intCoerce
  let padding ← (lookupOptV options "padding").bind intCoerce
  let text_size ← (lookupOptV options "text_size").bind intCoerce
  let font ← (lookupOptV options "font").bind strCoerce
  let fg ← (lookupOptV options "foreground_color").bind strCoerce
  let bg ← (lookupOptV options "background_color").bind strCoerce
  let opacity ← (lookupOptV options "opacity").bind floatCoerce
  pure ⟨x, y, width, height, padding, text_size, font, fg, bg, opacity⟩

/-- Boolean safety of a character for the JSON round trip: not a quote, not a
    backslash, not a control character. -/
def safeChar (c : Char) : Bool :=
  decide (c ≠ '"' ∧ c ≠ '\\' ∧ 32 ≤ c.toNat)

/-- A string all of whose characters are safe for the JSON round trip. -/
def safeStr (s : String) : Bool := s.data.all safeChar

/-- View of a string-valued alias table as a Table. -/
def toTable (ts : List (String × String)) : Table :=
  ts.map (fun kv => (kv.1, Value.VStr kv.2))

/-- The concatenated serialized entries of write_to_file, at character level. -/
def entriesData : Table → List Char
  | [] => []
  | kv :: rest => (entryStr kv.1 kv.2).data ++ entriesData rest

/-- One newline-stripped serialized entry without its trailing comma. -/
def entData (k v : String) : List Char :=
  '\t' :: '"' :: (k.data ++ '"' :: ':' :: ' ' :: '"' :: (v.data ++ ['"']))

/-- The serialized entries after newline stripping, one leading comma per
    entry: the character shape the parser sees after the first member. -/
def midData : List (String × String) → List Char
  | [] => []
  | kv :: rest => ',' :: (entData kv.1 kv.2 ++ midData rest)

/- ————————————————————————— Theorems ————————————————————————— -/

lemma toNat_ofNat_valid (n : Nat) (h : n < 55296) : (Char.ofNat n).toNat = n := by
  unfold Char.ofNat
  rw [dif_pos (Or.inl h)]
  simp [Char.ofNatAux, Char.toNat, UInt32.ofNat', UInt32.toNat]

lemma toLower_toUpper_fixed (c : Char) (h : c.toLower = c) : (c.toUpper).toLower = c := by
  unfold Char.toUpper
  by_cases hc : c.toNat ≥ 97 ∧ c.toNat ≤ 122
  · rw [if_pos hc]
    unfold Char.toLower
    have h1 : (Char.ofNat (c.toNat - 32)).toNat = c.toNat - 32 :=
      toNat_ofNat_valid _ (by omega)
    rw [if_pos (by omega)]
    rw [h1]
    have h2 : c.toNat - 32 + 32 = c.toNat := by omega
    rw [h2]
    exact Char.ofNat_toNat c
  · rw [if_neg hc]
    exact h

lemma isPySpace_toLower {c : Char} (h : isPySpace c) : c.toLower = c := by
  simp only [isPySpace, Bool.or_eq_true, decide_eq_true_eq] at h
  rcases h with ((((h | h) | h) | h) | h) | h <;> subst h <;> decide

lemma pyStrip_all_space {l : List Char} (h : ∀ c ∈ l, isPySpace c) :
    pyStripList l = [] := by
  unfold pyStripList
  rw [List.dropWhile_eq_nil_iff.mpr h]
  simp

/-- C4: for the empty input string and for every whitespace-only input
    string, run_command yields no outcome at all — neither SUCCESS nor
    INVALID nor MISSING_FILE — regardless of the table's contents. -/
theorem run_command_whitespace_no_outcome (startfile : Value → OpenResult)
    (commands : Table) (s : String) (h : ∀ c ∈ s.data, isPySpace c) :
    run_command startfile commands s = RunResult.noOutcome := by
  have hl : ∀ c ∈ (pyLower s).data, isPySpace c := by
    intro c hc
    simp only [pyLower, List.mem_map] at hc
    obtain ⟨a, ha, rfl⟩ := hc
    rw [isPySpace_toLower (h a ha)]
    exact h a ha
  have hs : pyStrip (pyLower s) = "" := by
    apply String.ext
    simp only [pyStrip]
    exact pyStrip_all_space hl
  unfold run_command
  rw [hs]
  simp

/-- Witness for run_command_whitespace_no_outcome at the three-space input. -/
theorem run_command_whitespace_no_outcome_witness :
    run_command (fun _ => OpenResult.ok) default_commands "   " = RunResult.noOutcome :=
  run_command_whitespace_no_outcome (fun _ => OpenResult.ok) default_commands "   "
    (by decide)

/-- C1: for a non-empty normalized input that is not a key, run_command
    returns INVALID; for one whose normalized form is a key, it returns
    MISSING_FILE exactly when opening the target raises FileNotFoundError and
    SUCCESS exactly when the open succeeds. -/
theorem run_command_outcomes (startfile : Value → OpenResult) (commands : Table)
    (input : String) (hne : pyStrip (pyLower input) ≠ "") :
    (lookupTbl commands (pyStrip (pyLower input)) = none →
      run_command startfile commands input = RunResult.status CommandStatus.INVALID) ∧
    (∀ v, lookupTbl commands (pyStrip (pyLower input)) = some v →
      ((run_command startfile commands input = RunResult.status CommandStatus.MISSING_FILE ↔
          startfile v = OpenResult.fileNotFound) ∧
       (run_command startfile commands input = RunResult.status CommandStatus.SUCCESS ↔
          startfile v = OpenResult.ok))) := by
  unfold run_command
  rw [if_neg hne]
  constructor
  · intro hmiss
    rw [hmiss]
  · intro v hv
    rw [hv]
    cases hsf : startfile v <;> simp [hsf]

/-- Witness for run_command_outcomes: the default table, an oracle that
    reports every target missing, and the input "  CONFIG ". -/
theorem run_command_outcomes_witness :
    run_command (fun _ => OpenResult.fileNotFound) default_commands "  CONFIG " =
      RunResult.status CommandStatus.MISSING_FILE := by
  have h := run_command_outcomes (fun _ => OpenResult.fileNotFound) default_commands
    "  CONFIG " (by decide)
  exact ((h.2 (Value.VStr "config.ini") (by decide)).1).mpr rfl

/-- C2 (failing input): a Return key press with empty input takes no action
    at all — run_command returns None, none of the status branches fires, and
    in particular the window is not closed, although the README promises that
    entering an empty command closes Protocomm quietly. -/
theorem keyPressEvent_return_empty_no_action (startfile : Value → OpenResult)
    (commands : Table) :
    keyPressEvent_return startfile commands "" = UIAction.noAction ∧
      UIAction.noAction ≠ UIAction.quit := by
  constructor
  · unfold keyPressEvent_return run_command
    simp [pyLower, pyStrip, pyStripList]
  · simp

/-- C10: the defaults written by make_default_config in the PyQt6 procedural
    variant contain no value for the key "padding", yet main unconditionally
    reads options["padding"]: on a first run with defaults the read fails
    (and succeeds once a padding entry is added, so padding is what fails);
    the tkinter variant's defaults also lack "height". -/
theorem make_default_config_missing_padding :
    lookupOptV qt_default_options "padding" = none ∧
    mainReadOptions qt_default_options = none ∧
    mainReadOptions (qt_default_options ++ [("padding", OptValue.vInt 8)]) ≠ none ∧
    lookupOptV tk_default_options "height" = none := by
  refine ⟨by decide, by decide, ?_, by decide⟩
  intro h
  simp [mainReadOptions, qt_default_options, lookupOptV, intCoerce, strCoerce,
    floatCoerce, Option.bind] at h

/-- C9 (counterexample, procedural variant): two back-to-back red flashes on
    the shared timer; at the timeout both accumulated reset handlers run in
    connection order, and the second (which captured the first flash's red as
    the "style to restore") runs last, so the frame ends on the flash color,
    not on the base style. -/
theorem flash_qt_stale_reset_cex :
    (fireTimeoutQt (ProtocommWindow.flash
        (ProtocommWindow.flash ⟨mkStyle "#000000" 19, []⟩ "#FF0000" 19)
        "#FF0000" 19)).1.frameStyle = mkStyle "#FF0000" 19 ∧
    mkStyle "#FF0000" 19 ≠ mkStyle "#000000" 19 := by
  constructor
  · rfl
  · decide

/-- C9 (amended): in the class-based variant, after two back-to-back flashes
    a timeout emission restores the base style exactly once — the first
    handler resets to the base style and disconnects everything, so the stale
    second handler (which captured the intermediate flash color) never runs. -/
theorem flash_cm_single_reset (base c1 c2 : String) (r1 r2 : Int) :
    fireTimeoutCM (ProtocommWindow.flash
        (ProtocommWindow.flash ⟨base, []⟩ c1 r1) c2 r2) =
      (⟨base, []⟩, [base]) := by
  simp [fireTimeoutCM, ProtocommWindow.flash]

/-- C5: for the spec's example — alias args ["open-browser",
    "https://example.com/q=\x7bCLIPBOARD\x7d"] and clipboard "hello world" —
    the executed argument vector substitutes the placeholder in every
    argument, and its second element is "https://example.com/q=hello world". -/
theorem clipboard_substitution_example :
    run_command_multi_argv "hello world"
        ["open-browser", "https://example.com/q=\x7bCLIPBOARD\x7d"] =
      ["open-browser", "https://example.com/q=hello world"] ∧
    (run_command_multi_argv "hello world"
        ["open-browser", "https://example.com/q=\x7bCLIPBOARD\x7d"]).get? 1 =
      some "https://example.com/q=hello world" := by
  constructor
  · rfl
  · rfl

lemma map_fixed_mem {α : Type} {f : α → α} :
    ∀ {l : List α}, l.map f = l → ∀ x ∈ l, f x = x := by
  intro l
  induction l with
  | nil => intro _ x hx; cases hx
  | cons a t ih =>
    intro h x hx
    rw [List.map_cons, List.cons.injEq] at h
    cases hx with
    | head => exact h.1
    | tail _ hmem => exact ih h.2 x hmem

lemma strip_fixed_parts {l : List Char} (h : pyStripList l = l) :
    l.dropWhile isPySpace = l ∧ l.reverse.dropWhile isPySpace = l.reverse := by
  have hlen : (pyStripList l).length = l.length := by rw [h]
  have h1le : ((l.dropWhile isPySpace).reverse.dropWhile isPySpace).length ≤
      (l.dropWhile isPySpace).length := by
    have := (List.dropWhile_suffix (l := (l.dropWhile isPySpace).reverse)
      isPySpace).length_le
    simpa using this
  have h2le : (l.dropWhile isPySpace).length ≤ l.length :=
    (List.dropWhile_suffix isPySpace).length_le
  have hstriplen : (pyStripList l).length =
      ((l.dropWhile isPySpace).reverse.dropWhile isPySpace).length := by
    simp [pyStripList]
  have hdrop : l.dropWhile isPySpace = l :=
    (List.dropWhile_suffix isPySpace).eq_of_length (by omega)
  refine ⟨hdrop, ?_⟩
  have h2 : ((l.reverse.dropWhile isPySpace).reverse : List Char) = l := by
    calc ((l.reverse.dropWhile isPySpace).reverse : List Char)
        = pyStripList l := by rw [pyStripList, hdrop]
      _ = l := h
  calc l.reverse.dropWhile isPySpace
      = ((l.reverse.dropWhile isPySpace).reverse).reverse := by rw [List.reverse_reverse]
    _ = l.reverse := by rw [h2]

lemma head_not_space {c : Char} {t : List Char}
    (hfix : (c :: t).dropWhile isPySpace = c :: t) : isPySpace c = false := by
  by_contra hc
  rw [Bool.not_eq_false] at hc
  rw [List.dropWhile_cons_of_pos hc] at hfix
  have hle : (t.dropWhile isPySpace).length ≤ t.length :=
    (List.dropWhile_suffix isPySpace).length_le
  have hlen := congrArg List.length hfix
  simp only [List.length_cons] at hlen
  omega

lemma dropWhile_append_fixed {l l₂ : List Char} (hne : l ≠ [])
    (hfix : l.dropWhile isPySpace = l) :
    (l ++ l₂).dropWhile isPySpace = l ++ l₂ := by
  cases l with
  | nil => exact absurd rfl hne
  | cons c t =>
    have hc : isPySpace c = false := head_not_space hfix
    rw [List.cons_append, List.dropWhile_cons_of_neg (by simp [hc])]

lemma normalize_wrapped (k : String) (hlower : pyLower k = k)
    (hstrip : pyStrip k = k) (hne : k ≠ "") :
    pyStrip (pyLower ("  " ++ pyUpper k ++ "  ")) = k := by
  have hlowerL : k.data.map Char.toLower = k.data := congrArg String.data hlower
  have hstripL : pyStripList k.data = k.data := congrArg String.data hstrip
  have hneL : k.data ≠ [] := by
    intro hd
    exact hne (String.ext hd)
  have hUL : (k.data.map Char.toUpper).map Char.toLower = k.data := by
    rw [List.map_map]
    calc k.data.map (Char.toLower ∘ Char.toUpper)
        = k.data.map id := by
          apply List.map_congr_left
          intro c hc
          exact toLower_toUpper_fixed c (map_fixed_mem hlowerL c hc)
      _ = k.data := List.map_id k.data
  have hdata : (pyLower ("  " ++ pyUpper k ++ "  ")).data =
      ' ' :: ' ' :: (k.data ++ [' ', ' ']) := by
    show (("  " ++ pyUpper k ++ "  ").data.map Char.toLower) = _
    rw [String.data_append, String.data_append]
    show ((([' ', ' '] : List Char) ++ k.data.map Char.toUpper ++ [' ', ' ']).map
      Char.toLower) = _
    rw [List.map_append, List.map_append, hUL]
    rfl
  have hparts := strip_fixed_parts hstripL
  apply String.ext
  show pyStripList (pyLower ("  " ++ pyUpper k ++ "  ")).data = _
  rw [hdata]
  unfold pyStripList
  rw [List.dropWhile_cons_of_pos (by decide), List.dropWhile_cons_of_pos (by decide)]
  rw [dropWhile_append_fixed hneL hparts.1]
  rw [List.reverse_append]
  show ((([' ', ' '] : List Char) ++ k.data.reverse).dropWhile isPySpace).reverse = _
  rw [List.dropWhile_append_of_pos (by decide)]
  rw [hparts.2, List.reverse_reverse]

/-- C3 (counterexample): an alias stored with an uppercase key is present in
    the table, yet resolving exactly that stored key returns nothing — the
    code lowercases the input before the exact-match lookup, so lookup is not
    case-insensitive for stored aliases that are not already lowercase. -/
theorem resolve_unnormalized_key_cex :
    lookupTbl [("FOO", Value.VStr "x")] "FOO" = some (Value.VStr "x") ∧
    resolve [("FOO", Value.VStr "x")] "FOO" = none := by
  decide

/-- C3 (amended): for every alias whose stored key is non-empty, already
    trimmed and already lowercase, resolving the key itself and resolving the
    key wrapped in whitespace and uppercased both return the stored target. -/
theorem resolve_normalized_alias (commands : Table) (k : String) (v : Value)
    (hk : lookupTbl commands k = some v) (hlower : pyLower k = k)
    (hstrip : pyStrip k = k) (hne : k ≠ "") :
    resolve commands k = some v ∧
    resolve commands ("  " ++ pyUpper k ++ "  ") = some v := by
  constructor
  · unfold resolve
    rw [hlower, hstrip, if_neg hne]
    exact hk
  · unfold resolve
    rw [normalize_wrapped k hlower hstrip hne, if_neg hne]
    exact hk

/-- Witness for resolve_normalized_alias at the stored alias "notes". -/
theorem resolve_normalized_alias_witness :
    resolve [("notes", Value.VStr "C:/x")] "notes" = some (Value.VStr "C:/x") ∧
    resolve [("notes", Value.VStr "C:/x")] ("  " ++ pyUpper "notes" ++ "  ") =
      some (Value.VStr "C:/x") :=
  resolve_normalized_alias [("notes", Value.VStr "C:/x")] "notes" (Value.VStr "C:/x")
    (by decide) (by decide) (by decide) (by decide)

/-- C8: loading a display-config Options section in which every field is
    present and coercible except one — opacity holding a non-numeric string
    (first part), or padding missing entirely (second part) — yields a config
    in which only that field is reset to its dataclass default while every
    other field keeps the value stored in the file. -/
theorem config_field_level_repair :
    (∀ (sx sy sw sh sp st sf sfg sbg sop : String) (nx ny nw nh np nt : Int),
      pyInt sx = some nx → pyInt sy = some ny → pyInt sw = some nw →
      pyInt sh = some nh → pyInt sp = some np → pyInt st = some nt →
      pyFloat sop = none →
      ProtocommWindowConfig.load_from_file ProtocommWindowConfig.defaults
        [("x", sx), ("y", sy), ("width", sw), ("height", sh), ("padding", sp),
         ("text_size", st), ("font", sf), ("fg_color", sfg), ("bg_color", sbg),
         ("opacity", sop)] =
        ⟨nx, ny, nw, nh, np, nt, sf, sfg, sbg, ProtocommWindowConfig.defaults.opacity⟩) ∧
    (∀ (sx sy sw sh st sf sfg sbg sop : String) (nx ny nw nh nt : Int) (qop : Rat),
      pyInt sx = some nx → pyInt sy = some ny → pyInt sw = some nw →
      pyInt sh = some nh → pyInt st = some nt → pyFloat sop = some qop →
      ProtocommWindowConfig.load_from_file ProtocommWindowConfig.defaults
        [("x", sx), ("y", sy), ("width", sw), ("height", sh),
         ("text_size", st), ("font", sf), ("fg_color", sfg), ("bg_color", sbg),
         ("opacity", sop)] =
        ⟨nx, ny, nw, nh, ProtocommWindowConfig.defaults.padding, nt, sf, sfg, sbg, qop⟩) := by
  constructor
  · intro sx sy sw sh sp st sf sfg sbg sop nx ny nw nh np nt hx hy hw hh hp ht hop
    simp [ProtocommWindowConfig.load_from_file, setIntVar, setRatVar, setStrVar,
      lookupOpt, hx, hy, hw, hh, hp, ht, hop]
  · intro sx sy sw sh st sf sfg sbg sop nx ny nw nh nt qop hx hy hw hh ht hop
    simp [ProtocommWindowConfig.load_from_file, setIntVar, setRatVar, setStrVar,
      lookupOpt, hx, hy, hw, hh, ht, hop]

/-- Witness for config_field_level_repair: concrete stored values, opacity
    corrupted to "abc" in the first part and padding missing in the second. -/
theorem config_field_level_repair_witness :
    ProtocommWindowConfig.load_from_file ProtocommWindowConfig.defaults
      [("x", "11"), ("y", "12"), ("width", "700"), ("height", "50"), ("padding", "9"),
       ("text_size", "30"), ("font", "Arial"), ("fg_color", "#EEEEEE"),
       ("bg_color", "#111111"), ("opacity", "abc")] =
      ⟨11, 12, 700, 50, 9, 30, "Arial", "#EEEEEE", "#111111",
        ProtocommWindowConfig.defaults.opacity⟩ ∧
    ProtocommWindowConfig.load_from_file ProtocommWindowConfig.defaults
      [("x", "11"), ("y", "12"), ("width", "700"), ("height", "50"),
       ("text_size", "30"), ("font", "Arial"), ("fg_color", "#EEEEEE"),
       ("bg_color", "#111111"), ("opacity", "0.5")] =
      ⟨11, 12, 700, 50, ProtocommWindowConfig.defaults.padding, 30, "Arial", "#EEEEEE",
        "#111111", (1 : Rat) / 2⟩ :=
  ⟨config_field_level_repair.1 "11" "12" "700" "50" "9" "30" "Arial" "#EEEEEE" "#111111"
      "abc" 11 12 700 50 9 30 (by decide) (by decide) (by decide) (by decide) (by decide)
      (by decide) (by decide),
   config_field_level_repair.2 "11" "12" "700" "50" "30" "Arial" "#EEEEEE" "#111111"
      "0.5" 11 12 700 50 30 ((1 : Rat) / 2) (by decide) (by decide) (by decide)
      (by decide) (by decide)
      (by
        have h : pyFloat "0.5" =
            some ((1 : Rat) *
              ((digitsToNat ['0'] : Rat) + (digitsToNat ['5'] : Rat) / (10 : Rat) ^ 1)) := rfl
        have h0 : digitsToNat ['0'] = 0 := by decide
        have h5 : digitsToNat ['5'] = 5 := by decide
        rw [h, h0, h5]
        norm_num)⟩

/-- C7 (counterexample): when the commands file is present, the procedural
    load_commands_file returns exactly the file's parsed contents; a file
    defining only "foo" loads to a table with no "commands" key at all, so a
    load does not always leave the built-in keys in the table. -/
theorem load_built_in_keys_cex :
    load_commands_file true "\x7b\"foo\": \"bar\"\x7d" = some [("foo", Value.VStr "bar")] ∧
    lookupTbl [("foo", Value.VStr "bar")] "commands" = none := by
  decide

lemma lookup_insert_isSome {t : Table} {kv : String × Value} {key : String}
    (h : (lookupTbl t key).isSome) : (lookupTbl (insertTbl t kv) key).isSome := by
  induction t with
  | nil => simp [lookupTbl] at h
  | cons hd rest ih =>
    obtain ⟨k, v⟩ := hd
    simp only [insertTbl]
    by_cases hk : k = kv.1
    · rw [if_pos hk]
      simp only [lookupTbl] at h ⊢
      by_cases hkey : k = key
      · simp [hkey]
      · rw [if_neg hkey] at h ⊢
        exact h
    · rw [if_neg hk]
      simp only [lookupTbl] at h ⊢
      by_cases hkey : k = key
      · simp [hkey]
      · rw [if_neg hkey] at h ⊢
        exact ih h

lemma lookup_foldl_insert_isSome (entries : List (String × Value)) :
    ∀ (t : Table) (key : String), (lookupTbl t key).isSome →
      (lookupTbl (entries.foldl insertTbl t) key).isSome := by
  induction entries with
  | nil => intro t key h; exact h
  | cons e rest ih =>
    intro t key h
    exact ih (insertTbl t e) key (lookup_insert_isSome h)

/-- C7 (amended): when the backing file is absent, a load yields exactly the
    default table, whose built-in keys "commands" and "config" map to the
    alias file's path and the display-config file's path; and in the
    class-based variant every load preserves the presence of both built-in
    keys (the file's entries are merged into a table that already carries
    them, so they can be remapped by the file but never removed).  When the
    procedural variant's file is present, however, the load returns the
    file's contents as-is (see the counterexample). -/
theorem load_built_in_keys (file_text : String) :
    load_commands_file false file_text = some default_commands ∧
    lookupTbl default_commands "commands" = some (Value.VStr "commands.json") ∧
    lookupTbl default_commands "config" = some (Value.VStr "config.ini") ∧
    (∀ (commands : Table) (file_present : Bool) (t' : Table),
      (lookupTbl commands "commands").isSome → (lookupTbl commands "config").isSome →
      CommandManager.load_from_file commands file_present file_text = some t' →
      (lookupTbl t' "commands").isSome ∧ (lookupTbl t' "config").isSome) := by
  refine ⟨rfl, rfl, rfl, ?_⟩
  intro commands file_present t' h1 h2 hload
  simp only [CommandManager.load_from_file] at hload
  cases hparse : loadCommandsText
      (if file_present then file_text else CommandManager.write_to_file commands) with
  | none => rw [hparse] at hload; cases hload
  | some entries =>
    rw [hparse] at hload
    have ht' : entries.foldl insertTbl commands = t' := by
      injection hload
    rw [← ht']
    exact ⟨lookup_foldl_insert_isSome entries commands "commands" h1,
           lookup_foldl_insert_isSome entries commands "config" h2⟩

/-- Witness for load_built_in_keys: the class-based manager, starting from
    the defaults, loading a present file that remaps "commands". -/
theorem load_built_in_keys_witness :
    (lookupTbl [("commands", Value.VStr "elsewhere"), ("config", Value.VStr "config.ini")]
        "commands").isSome ∧
    (lookupTbl [("commands", Value.VStr "elsewhere"), ("config", Value.VStr "config.ini")]
        "config").isSome :=
  (load_built_in_keys "\x7b\"commands\": \"elsewhere\"\x7d").2.2.2 default_commands true
    [("commands", Value.VStr "elsewhere"), ("config", Value.VStr "config.ini")]
    (by decide) (by decide) (by decide)

/-- C6 (counterexample): a table with one string-list value does not round
    trip: write_to_file renders the list through Python str(), producing the
    single string "[\x27open-browser\x27, \x27x\x27]", which json.loads reads
    back as a plain string, not as the original list. -/
theorem round_trip_list_value_cex :
    load_commands_file true
        (CommandManager.write_to_file [("search", Value.VList ["open-browser", "x"])]) =
      some [("search", Value.VStr "[\x27open-browser\x27, \x27x\x27]")] ∧
    Value.VStr "[\x27open-browser\x27, \x27x\x27]" ≠ Value.VList ["open-browser", "x"] := by
  decide

lemma safeChar_ne_nl {c : Char} (h : safeChar c = true) : (c ≠ '\n') := by
  simp only [safeChar, decide_eq_true_eq] at h
  intro hc
  subst hc
  exact absurd h.2.2 (by decide)

lemma filter_safe_data {s : String} (h : safeStr s = true) :
    s.data.filter (fun c => c ≠ '\n') = s.data := by
  apply List.filter_eq_self.mpr
  intro c hc
  simp only [ne_eq, decide_eq_true_eq]
  exact safeChar_ne_nl (by
    simp only [safeStr, List.all_eq_true] at h
    exact h c hc)

lemma write_foldl_data (commands : Table) :
    ∀ s : String, (commands.foldl (fun acc kv => acc ++ entryStr kv.1 kv.2) s).data
      = s.data ++ entriesData commands := by
  induction commands with
  | nil => intro s; simp [entriesData]
  | cons kv rest ih =>
    intro s
    simp only [List.foldl_cons, entriesData]
    rw [ih (s ++ entryStr kv.1 kv.2), String.data_append, List.append_assoc]

lemma write_to_file_data (T : Table) :
    (CommandManager.write_to_file T).data =
      '\x7b' :: ((entriesData T).dropLast ++ ['\n', '\x7d']) := by
  show (("\x7b" ++ (⟨(T.foldl (fun acc kv => acc ++ entryStr kv.1 kv.2) "").data.dropLast⟩ : String)
      ++ "\n\x7d").data) = _
  rw [String.data_append, String.data_append, write_foldl_data T ""]
  rfl

lemma entry_data_eq (k v : String) :
    (entryStr k (Value.VStr v)).data = '\n' :: (entData k v ++ [',']) := by
  simp [entryStr, entData, pyStr, String.data_append]


lemma entData_filter (k v : String) (hk : safeStr k = true) (hv : safeStr v = true) :
    (entData k v).filter (fun c => c ≠ '\n') = entData k v := by
  simp only [entData, List.filter_cons, List.filter_append, filter_safe_data hk,
    filter_safe_data hv]
  simp

lemma filter_dropLast_entries :
    ∀ (rest : List (String × String)) (kv : String × String),
      ((kv :: rest).all (fun p => safeStr p.1 && safeStr p.2) = true) →
      ((entriesData (toTable (kv :: rest))).dropLast).filter (fun c => c ≠ '\n')
        = entData kv.1 kv.2 ++ midData rest := by
  intro rest
  induction rest with
  | nil =>
    intro kv hsafe
    simp only [List.all_cons, List.all_nil, Bool.and_true, Bool.and_eq_true] at hsafe
    simp only [toTable, List.map_cons, List.map_nil, entriesData, entry_data_eq,
      List.append_nil]
    have hdl : ('\n' :: (entData kv.1 kv.2 ++ [','])).dropLast = '\n' :: entData kv.1 kv.2 := by
      show (('\n' :: entData kv.1 kv.2) ++ [',']).dropLast = _
      rw [List.dropLast_concat]
    rw [hdl, List.filter_cons, if_neg (by decide)]
    simp only [midData, List.append_nil]
    exact entData_filter kv.1 kv.2 hsafe.1 hsafe.2
  | cons kv2 rest2 ih =>
    intro kv hsafe
    have hsafe1 : safeStr kv.1 = true ∧ safeStr kv.2 = true := by
      simp only [List.all_cons, Bool.and_eq_true] at hsafe
      exact hsafe.1
    have hsafe2 : ((kv2 :: rest2).all (fun p => safeStr p.1 && safeStr p.2)) = true := by
      simp only [List.all_cons, Bool.and_eq_true] at hsafe ⊢
      exact hsafe.2
    have hne : entriesData (toTable (kv2 :: rest2)) ≠ [] := by
      simp [toTable, entriesData, entry_data_eq]
    show ((entriesData ((kv.1, Value.VStr kv.2) :: toTable (kv2 :: rest2))).dropLast).filter
        (fun c => c ≠ '\n') = _
    rw [show entriesData ((kv.1, Value.VStr kv.2) :: toTable (kv2 :: rest2))
          = (entryStr kv.1 (Value.VStr kv.2)).data ++ entriesData (toTable (kv2 :: rest2))
        from rfl]
    rw [entry_data_eq]
    rw [List.dropLast_append_of_ne_nil _ hne]
    rw [List.filter_append, List.filter_cons, if_neg (by decide),
      List.filter_append, entData_filter kv.1 kv.2 hsafe1.1 hsafe1.2]
    have hcomma : List.filter (fun c => decide (c ≠ '\n')) [','] = [','] := by decide
    rw [hcomma, ih kv2 hsafe2]
    simp [midData, List.append_assoc]

lemma stripped_write_cons (kv : String × String) (rest : List (String × String))
    (hsafe : ((kv :: rest).all (fun p => safeStr p.1 && safeStr p.2)) = true) :
    (stripNewlines (CommandManager.write_to_file (toTable (kv :: rest)))).data
      = '\x7b' :: (entData kv.1 kv.2 ++ (midData rest ++ ['\x7d'])) := by
  show ((CommandManager.write_to_file (toTable (kv :: rest))).data.filter
      (fun c => c ≠ '\n')) = _
  rw [write_to_file_data, List.filter_cons, if_pos (by decide), List.filter_append,
    filter_dropLast_entries rest kv hsafe]
  have hfj : List.filter (fun c => decide (c ≠ '\n')) ['\n', '\x7d'] = ['\x7d'] := by decide
  rw [hfj]
  simp [List.append_assoc]

lemma parseStrChars_append :
    ∀ (l : List Char), l.all safeChar = true → ∀ rest : List Char,
      parseStrChars (l ++ '"' :: rest) = some (l, rest) := by
  intro l
  induction l with
  | nil =>
    intro _ rest
    show parseStrChars ('"' :: rest) = _
    simp [parseStrChars]
  | cons c t ih =>
    intro hall rest
    simp only [List.all_cons, Bool.and_eq_true] at hall
    have hc := hall.1
    simp only [safeChar, decide_eq_true_eq] at hc
    show parseStrChars (c :: (t ++ '"' :: rest)) = _
    simp only [parseStrChars]
    rw [if_neg (by simpa using hc.1)]
    rw [if_neg (by
      simp only [Bool.or_eq_true, decide_eq_true_eq]
      push_neg
      refine ⟨hc.2.1, ?_⟩
      omega)]
    rw [ih hall.2 rest]

lemma skipWs_tab (l : List Char) : skipWs ('\t' :: l) = skipWs l := by
  simp [skipWs]

lemma skipWs_not_ws {c : Char} (l : List Char)
    (h : (c = ' ' || c = '\t' || c = '\n' || c = '\r') = false) :
    skipWs (c :: l) = c :: l := by
  simp only [skipWs]
  rw [List.dropWhile_cons_of_neg (by simp [h])]

lemma parseMember_ent (k v : String) (hk : safeStr k = true) (hv : safeStr v = true)
    (rest : List Char) :
    parseMember (entData k v ++ rest) = some ((k, Value.VStr v), rest) := by
  have h1 : entData k v ++ rest
      = '\t' :: '"' :: (k.data ++ '"' :: (':' :: ' ' :: '"' :: (v.data ++ '"' :: rest))) := by
    simp [entData, List.append_assoc]
  have hkp := parseStrChars_append k.data hk (':' :: ' ' :: '"' :: (v.data ++ '"' :: rest))
  have hvp := parseStrChars_append v.data hv rest
  rw [h1]
  simp [parseMember, skipWs, hkp, hvp]

lemma midData_length (xs : List (String × String)) : xs.length ≤ (midData xs).length := by
  induction xs with
  | nil => simp [midData]
  | cons kv rest ih =>
    simp only [midData, List.length_cons, List.length_append]
    omega

lemma parseObjLoop_mid :
    ∀ (xs : List (String × String)) (fuel : Nat) (acc : Table),
      xs.length < fuel → (xs.all (fun p => safeStr p.1 && safeStr p.2) = true) →
      parseObjLoop fuel (midData xs ++ ['\x7d']) acc
        = some (xs.foldl (fun a kv => insertTbl a (kv.1, Value.VStr kv.2)) acc) := by
  intro xs
  induction xs with
  | nil =>
    intro fuel acc hfuel _
    cases fuel with
    | zero => omega
    | succ f =>
      show parseObjLoop (f + 1) ['\x7d'] acc = some acc
      simp only [parseObjLoop]
      rw [skipWs_not_ws _ (by decide)]
      simp [skipWs]
  | cons kv rest ih =>
    intro fuel acc hfuel hsafe
    cases fuel with
    | zero => simp at hfuel
    | succ f =>
      simp only [List.all_cons, Bool.and_eq_true] at hsafe
      show parseObjLoop (f + 1) ((',' :: (entData kv.1 kv.2 ++ midData rest)) ++ ['\x7d'])
          acc = _
      simp only [parseObjLoop, List.cons_append]
      rw [skipWs_not_ws _ (by decide)]
      simp only [if_pos rfl]
      rw [List.append_assoc, parseMember_ent kv.1 kv.2 hsafe.1.1 hsafe.1.2]
      show parseObjLoop f (midData rest ++ ['\x7d']) (insertTbl acc (kv.1, Value.VStr kv.2))
          = some (List.foldl (fun a kv => insertTbl a (kv.1, Value.VStr kv.2))
              (insertTbl acc (kv.1, Value.VStr kv.2)) rest)
      exact ih f (insertTbl acc (kv.1, Value.VStr kv.2))
        (by simpa using Nat.lt_of_succ_lt_succ hfuel) hsafe.2

lemma insertTbl_fresh (t : Table) (kv : String × Value) (h : kv.1 ∉ t.map Prod.fst) :
    insertTbl t kv = t ++ [kv] := by
  induction t with
  | nil => rfl
  | cons hd rest ih =>
    obtain ⟨k0, v0⟩ := hd
    simp only [List.map_cons, List.mem_cons, not_or] at h
    simp only [insertTbl]
    rw [if_neg (fun he => h.1 he.symm)]
    rw [ih h.2, List.cons_append]

lemma foldl_insert_append :
    ∀ (xs : List (String × String)) (acc : Table),
      (xs.map Prod.fst).Nodup →
      (∀ p ∈ xs, p.1 ∉ acc.map Prod.fst) →
      xs.foldl (fun a kv => insertTbl a (kv.1, Value.VStr kv.2)) acc
        = acc ++ toTable xs := by
  intro xs
  induction xs with
  | nil =>
    intro acc _ _
    simp [toTable]
  | cons kv rest ih =>
    intro acc hnodup hfresh
    simp only [List.map_cons, List.nodup_cons] at hnodup
    simp only [List.foldl_cons]
    rw [insertTbl_fresh acc (kv.1, Value.VStr kv.2) (hfresh kv (by simp))]
    rw [ih (acc ++ [(kv.1, Value.VStr kv.2)]) hnodup.2 ?_]
    · simp [toTable, List.append_assoc]
    · intro p hp
      have hpacc : p.1 ∉ acc.map Prod.fst := hfresh p (List.mem_cons_of_mem _ hp)
      have hpk : p.1 ≠ kv.1 := by
        intro he
        exact hnodup.1 (he ▸ List.mem_map_of_mem Prod.fst hp)
      simp [hpacc, hpk]

/-- C6 (amended): for every alias table containing only string values all of
    whose characters are safe (no quotes, no backslashes, no control
    characters such as newlines or tabs) and with pairwise-distinct keys,
    writing the table with write_to_file and loading the written text back
    yields a table equal to the original.  (String-list values do not round
    trip — see the counterexample — and a backslash or control character
    inside a value breaks or alters the JSON reread, hence the strengthened
    safety condition.) -/
theorem write_load_round_trip (ts : List (String × String))
    (hsafe : (ts.all (fun p => safeStr p.1 && safeStr p.2)) = true)
    (hnodup : (ts.map Prod.fst).Nodup) :
    load_commands_file true (CommandManager.write_to_file (toTable ts))
      = some (toTable ts) := by
  show json.loads (stripNewlines (CommandManager.write_to_file (toTable ts))) = _
  cases ts with
  | nil => decide
  | cons kv rest =>
    simp only [List.all_cons, Bool.and_eq_true] at hsafe
    simp only [List.map_cons, List.nodup_cons] at hnodup
    have hdoc : stripNewlines (CommandManager.write_to_file (toTable (kv :: rest)))
        = ⟨'\x7b' :: (entData kv.1 kv.2 ++ (midData rest ++ ['\x7d']))⟩ :=
      String.ext (stripped_write_cons kv rest (by
        simp only [List.all_cons, Bool.and_eq_true]
        exact hsafe))
    rw [hdoc]
    simp only [json.loads]
    rw [show skipWs ('\x7b' :: (entData kv.1 kv.2 ++ (midData rest ++ ['\x7d'])))
        = '\x7b' :: (entData kv.1 kv.2 ++ (midData rest ++ ['\x7d']))
      from skipWs_not_ws _ (by decide)]
    show (match skipWs (entData kv.1 kv.2 ++ (midData rest ++ ['\x7d'])) with
      | [] => none
      | c2 :: r2 =>
        if c2 = '\x7d' then
          if skipWs r2 = [] then some [] else none
        else
          match parseMember (entData kv.1 kv.2 ++ (midData rest ++ ['\x7d'])) with
          | some (kvr, r) => parseObjLoop (r.length + 1) r (insertTbl [] kvr)
          | none => none) = _
    rw [show skipWs (entData kv.1 kv.2 ++ (midData rest ++ ['\x7d']))
        = '"' :: ((kv.1.data ++ '"' :: ':' :: ' ' :: '"' :: (kv.2.data ++ ['"']))
            ++ (midData rest ++ ['\x7d'])) from by
      rw [show entData kv.1 kv.2 ++ (midData rest ++ ['\x7d'])
          = '\t' :: '"' :: ((kv.1.data ++ '"' :: ':' :: ' ' :: '"' :: (kv.2.data ++ ['"']))
              ++ (midData rest ++ ['\x7d'])) from rfl]
      rw [skipWs_tab, skipWs_not_ws _ (by decide)]]
    show (match parseMember (entData kv.1 kv.2 ++ (midData rest ++ ['\x7d'])) with
      | some (kvr, r) => parseObjLoop (r.length + 1) r (insertTbl [] kvr)
      | none => none) = _
    rw [parseMember_ent kv.1 kv.2 hsafe.1.1 hsafe.1.2]
    show parseObjLoop ((midData rest ++ ['\x7d']).length + 1) (midData rest ++ ['\x7d'])
        [(kv.1, Value.VStr kv.2)] = _
    rw [parseObjLoop_mid rest ((midData rest ++ ['\x7d']).length + 1)
      [(kv.1, Value.VStr kv.2)]
      (by
        have := midData_length rest
        simp only [List.length_append, List.length_cons, List.length_nil]
        omega)
      hsafe.2]
    rw [foldl_insert_append rest [(kv.1, Value.VStr kv.2)] hnodup.2 (by
      intro p hp
      simp only [List.map_cons, List.map_nil, List.mem_cons, List.not_mem_nil]
      simp only [or_false]
      intro he
      exact hnodup.1 (he ▸ List.mem_map_of_mem Prod.fst hp))]
    rfl

/-- Witness for write_load_round_trip at the default two-entry table. -/
theorem write_load_round_trip_witness :
    load_commands_file true (CommandManager.write_to_file (toTable
        [("commands", "commands.json"), ("config", "config.ini")]))
      = some (toTable [("commands", "commands.json"), ("config", "config.ini")]) :=
  write_load_round_trip [("commands", "commands.json"), ("config", "config.ini")]
    (by decide) (by decide)
